import Mathlib

/-!
Verification of the `ncecere/ai-sdk` Go repository core behaviors:
the SSE streaming delta protocol (`chatStream.Next`, `messagesStream.Next`),
the retry middleware (`retryLanguageModel.Generate`), and the agent
tool-orchestration loop (`agent.RunWithEvents`).

The Go code is shallowly embedded: machine state (the stream's `done` flag
and remaining scanner input, the retry loop's attempt counter and backoff,
the agent loop's message history and step counter) is passed explicitly,
fallible operations return `Except`, and external collaborators (the JSON
decoder, the wrapped model call, tool execution, the backoff sleep) are
parameters of the embedded functions.
-/

deriving instance DecidableEq for Except

namespace AiSdk

/-- Model of Go `error` values that appear in the verified code paths.
`canceled` and `deadlineExceeded` model `context.Canceled` and
`context.DeadlineExceeded` (compared via `errors.Is`); `netTimeout` and
`netTemporary` model `net.Error` values whose `Timeout()` / `Temporary()`
methods report true; the structured constructors model the `ai` package
error types; `generic` models any other opaque error. -/
inductive GoError where
  | canceled
  | deadlineExceeded
  | invalidArgument (parameter message : String)
  | unsupportedFunctionality (feature message : String)
  | netErr (timeout temporary : Bool) (msg : String)
  | generic (msg : String)
  deriving DecidableEq, Repr

/-- `(*InvalidArgumentError).Error` / `(*UnsupportedFunctionalityError).Error`
and the standard-library strings for the other cases. -/
def GoError.errString : GoError → String
  | .canceled => "context canceled"
  | .deadlineExceeded => "context deadline exceeded"
  | .invalidArgument p m => "ai: invalid argument for parameter " ++ p ++ ": " ++ m
  | .unsupportedFunctionality f m =>
      if m ≠ "" then "ai: unsupported functionality (" ++ f ++ "): " ++ m
      else "ai: unsupported functionality (" ++ f ++ ")"
  | .netErr _ _ m => m
  | .generic m => m

/-- `provider.Message`. -/
structure Message where
  role : String
  content : String
  deriving DecidableEq, Repr

/-- `provider.ToolCall` (`RawArguments []byte` modelled as a string). -/
structure ToolCall where
  id : String
  name : String
  rawArguments : String
  deriving DecidableEq, Repr

/-- `provider.ToolDefinition` (`Parameters []byte` modelled as a string). -/
structure ToolDefinition where
  name : String
  description : String
  parameters : String
  deriving DecidableEq, Repr

/-- `provider.LanguageModelDelta`. -/
structure LanguageModelDelta where
  text : String := ""
  toolCalls : List ToolCall := []
  done : Bool := false
  deriving DecidableEq, Repr

/-- `provider.LanguageModelResponse`. -/
structure LanguageModelResponse where
  text : String
  stopReason : String
  toolCalls : List ToolCall
  deriving DecidableEq, Repr

/-- Role constants from the `ai` package. -/
def RoleUser : String := "user"

def RoleSystem : String := "system"

def RoleAssistant : String := "assistant"

def RoleTool : String := "tool"

/-! ## Streaming delta protocol

`chatStream` (OpenAI wire format, `src/unnamed/part_004`) and
`messagesStream` (Anthropic wire format, `src/call_settings_validation.go`)
read newline-delimited SSE input through a `bufio.Scanner`.  The scanner is
modelled as the list of lines it has not yet delivered plus the read error
(`scanner.Err()`) it reports once the lines are exhausted.  JSON decoding of
an event payload (`json.Unmarshal`) is an external collaborator and is a
parameter of `Next`. -/

/-- The unread portion of the underlying byte source as seen through
`bufio.Scanner`: the lines still to be delivered, and the value of
`scanner.Err()` observed once `Scan` returns false (`none` = clean EOF). -/
structure ByteSource where
  lines : List String
  readErr : Option GoError
  deriving DecidableEq, Repr

/-- ASCII whitespace as recognised by Go's `unicode.IsSpace` (the wire
protocol here is ASCII-framed SSE). -/
def isSpaceGo (c : Char) : Bool :=
  c = ' ' ∨ c = '\t' ∨ c = '\n' ∨ c = '\x0b' ∨ c = '\x0c' ∨ c = '\r'

/-- `strings.TrimSpace` (structural, over the string's characters). -/
def trimSpaceGo (s : String) : String :=
  ⟨((s.data.dropWhile isSpaceGo).reverse.dropWhile isSpaceGo).reverse⟩

/-- `strings.HasPrefix`. -/
def hasPreGo (s pre : String) : Bool :=
  pre.data.isPrefixOf s.data

/-- `strings.TrimPrefix`. -/
def trimLeading (s pre : String) : String :=
  if hasPreGo s pre then ⟨s.data.drop pre.data.length⟩ else s

/-- One streamed tool-call fragment inside an OpenAI chunk
(`openAIChatStreamChunk.Choices[].Delta.ToolCalls[]`). -/
structure OpenAIStreamToolCall where
  id : String
  type : String
  functionName : String
  functionArguments : String
  deriving DecidableEq, Repr

/-- `openAIChatStreamChunk.Choices[].Delta`. -/
structure OpenAIStreamChoiceDelta where
  content : String
  toolCalls : List OpenAIStreamToolCall
  deriving DecidableEq, Repr

/-- `openAIChatStreamChunk.Choices[]`. -/
structure OpenAIStreamChoice where
  delta : OpenAIStreamChoiceDelta
  finishReason : String
  deriving DecidableEq, Repr

/-- `openAIChatStreamChunk`. -/
structure OpenAIChatStreamChunk where
  choices : List OpenAIStreamChoice
  deriving DecidableEq, Repr

/-- The delta built from the first choice of a chunk in `chatStream.Next`
(the `delta := ...` construction plus the tool-call append loop and the
finish-reason check). -/
def chatDeltaOfChoice (choice : OpenAIStreamChoice) : LanguageModelDelta :=
  { text := choice.delta.content
    toolCalls :=
      (choice.delta.toolCalls.filter (fun tc => tc.type == "function")).map
        (fun tc =>
          { id := tc.id, name := tc.functionName, rawArguments := tc.functionArguments })
    done := choice.finishReason ≠ "" }

/-- The scanning loop of `chatStream.Next` (part_004 lines 1040-1090),
for a context that is not cancelled.  Returns the call's result, the lines
left unread, and the new value of the stream's `done` flag (the flag starts
false here; the done-stream fast path is in `chatStreamNext`).
`parseChunk` models `json.Unmarshal` into `openAIChatStreamChunk`. -/
def chatNextLoop (parseChunk : String → Except GoError OpenAIChatStreamChunk) :
    List String → Option GoError →
      Except GoError LanguageModelDelta × List String × Bool
  | [], readErr =>
      match readErr with
      | some e => (.error e, [], false)
      | none => (.ok { done := true }, [], true)
  | line :: rest, readErr =>
      let l := trimSpaceGo line
      if l = "" then chatNextLoop parseChunk rest readErr
      else if ¬ hasPreGo l "data:" then chatNextLoop parseChunk rest readErr
      else
        let data := trimSpaceGo (trimLeading l "data:")
        if data = "[DONE]" then (.ok { done := true }, rest, true)
        else
          match parseChunk data with
          | .error e => (.error e, rest, false)
          | .ok chunk =>
            match chunk.choices with
            | [] => chatNextLoop parseChunk rest readErr
            | choice :: _ =>
              let d := chatDeltaOfChoice choice
              (.ok d, rest, d.done)

/-- The mutable state of a `chatStream` value. -/
structure ChatStreamState where
  source : ByteSource
  done : Bool
  deriving DecidableEq, Repr

/-- `chatStream.Next` with a non-cancelled context (`ctx.Err() == nil`;
the cancellation path returns `ctx.Err()` before touching the scanner and
is orthogonal to the claims verified here).  Returns the delta or error
together with the stream state after the call. -/
def chatStreamNext (parseChunk : String → Except GoError OpenAIChatStreamChunk)
    (s : ChatStreamState) :
    Except GoError LanguageModelDelta × ChatStreamState :=
  if s.done then (.ok { done := true }, s)
  else
    let (r, rest, d) := chatNextLoop parseChunk s.source.lines s.source.readErr
    (r, { source := { lines := rest, readErr := s.source.readErr }, done := d })

/-- `anthropicDelta`. -/
structure AnthropicDelta where
  type : String
  text : String
  deriving DecidableEq, Repr

/-- `anthropicStreamEvent`. -/
structure AnthropicStreamEvent where
  type : String
  delta : Option AnthropicDelta
  deriving DecidableEq, Repr

/-- The scanning loop of `messagesStream.Next`
(`src/call_settings_validation.go` lines 444-482), for a context that is
not cancelled.  `parseEvent` models `json.Unmarshal` into
`anthropicStreamEvent`. -/
def messagesNextLoop (parseEvent : String → Except GoError AnthropicStreamEvent) :
    List String → Option GoError →
      Except GoError LanguageModelDelta × List String × Bool
  | [], readErr =>
      match readErr with
      | some e => (.error e, [], false)
      | none => (.ok { done := true }, [], true)
  | line :: rest, readErr =>
      let l := trimSpaceGo line
      if l = "" then messagesNextLoop parseEvent rest readErr
      else if ¬ hasPreGo l "data:" then messagesNextLoop parseEvent rest readErr
      else
        let data := trimSpaceGo (trimLeading l "data:")
        if data = "[DONE]" then (.ok { done := true }, rest, true)
        else
          match parseEvent data with
          | .error e => (.error e, rest, false)
          | .ok ev =>
            if ev.type = "content_block_delta" then
              match ev.delta with
              | some d =>
                if d.type = "text_delta" ∧ d.text ≠ "" then
                  (.ok { text := d.text }, rest, false)
                else messagesNextLoop parseEvent rest readErr
              | none => messagesNextLoop parseEvent rest readErr
            else if ev.type = "message_stop" then (.ok { done := true }, rest, true)
            else messagesNextLoop parseEvent rest readErr

/-- The mutable state of a `messagesStream` value. -/
structure MessagesStreamState where
  source : ByteSource
  done : Bool
  deriving DecidableEq, Repr

/-- `messagesStream.Next` with a non-cancelled context. -/
def messagesStreamNext (parseEvent : String → Except GoError AnthropicStreamEvent)
    (s : MessagesStreamState) :
    Except GoError LanguageModelDelta × MessagesStreamState :=
  if s.done then (.ok { done := true }, s)
  else
    let (r, rest, d) := messagesNextLoop parseEvent s.source.lines s.source.readErr
    (r, { source := { lines := rest, readErr := s.source.readErr }, done := d })

/-- A line the scanning loops skip silently: after trimming it does not
start with `data:` (this subsumes blank lines). -/
def skippableLine (l : String) : Bool :=
  !(hasPreGo (trimSpaceGo l) "data:")

/-- A line whose `data:` payload is the completion sentinel `[DONE]`. -/
def isDoneLine (l : String) : Bool :=
  hasPreGo (trimSpaceGo l) "data:" &&
    trimSpaceGo (trimLeading (trimSpaceGo l) "data:") == "[DONE]"

/-- The `data:` payload carried by a line, when the loops treat it as a
data line. -/
def dataPayload (l : String) : String :=
  trimSpaceGo (trimLeading (trimSpaceGo l) "data:")

/-! ## Resilience middleware (retry)

`retryLanguageModel.Generate` (`src/unnamed/part_005` lines 249-279).
`time.Duration` is an `int64` nanosecond count, modelled as `Int`.  The
wrapped model call is an external collaborator modelled as a function of
the 1-based attempt number; `sleepWithContext` is modelled as a function
from (attempt number, backoff duration) to the value it returns (`none`
for a completed sleep, `some e` when the context is done with
`ctx.Err() = e`). -/

/-- `middleware.RetryOptions` (`ShouldRetry` is a nilable func). -/
structure RetryOptions where
  maxAttempts : Int
  initialBackoff : Int
  maxBackoff : Int
  shouldRetry : Option (GoError → Bool)

/-- `middleware.isTransientError`: a `net.Error` is transient when its
`Timeout()` or `Temporary()` method reports true; other errors never are. -/
def isTransientError : GoError → Bool
  | .netErr timeout temporary _ => timeout || temporary
  | _ => false

/-- `middleware.defaultRetryOptions`: each field is defaulted
independently (`MaxAttempts` to 3, `InitialBackoff` to 100ms in
nanoseconds, nil `ShouldRetry` to `isTransientError`). -/
def defaultRetryOptions (opts : RetryOptions) : RetryOptions :=
  { maxAttempts := if opts.maxAttempts ≤ 0 then 3 else opts.maxAttempts
    initialBackoff := if opts.initialBackoff ≤ 0 then 100000000 else opts.initialBackoff
    maxBackoff := opts.maxBackoff
    shouldRetry :=
      match opts.shouldRetry with
      | none => some isTransientError
      | some p => some p }

/-- `middleware.nextBackoff`. -/
def nextBackoff (current maxB : Int) : Int :=
  let nxt := current * 2
  if maxB > 0 ∧ nxt > maxB then maxB else nxt

/-- The `r.opt.ShouldRetry(err)` call.  `RetryLanguageModel` always runs
`defaultRetryOptions` before building the wrapper, so `shouldRetry` is
never `none` where the loop runs (a nil func call would panic in Go). -/
def appliedShouldRetry (opt : RetryOptions) (e : GoError) : Bool :=
  match opt.shouldRetry with
  | some p => p e
  | none => false

/-- The error built by `errors.New` after the retry loop exits with no
result and no recorded error. -/
def retryExhausted (lastErr : Option GoError) : GoError :=
  match lastErr with
  | some e => e
  | none => .generic "middleware: retry: exhausted attempts with no result"

/-- The `for attempt := 1; attempt <= r.opt.MaxAttempts; attempt++` loop of
`retryLanguageModel.Generate`.  `fuel` counts the loop iterations still
allowed by the guard (`opt.maxAttempts.toNat` at entry), `attempt` is the
Go loop variable and `backoff`/`lastErr` the loop-carried locals.  The
second component counts how many times the wrapped `Generate` ran. -/
def retryGenerateAux (opt : RetryOptions) (sleep : Nat → Int → Option GoError)
    (gen : Nat → Except GoError LanguageModelResponse) :
    Nat → Nat → Int → Option GoError →
      Except GoError LanguageModelResponse × Nat
  | 0, _, _, lastErr => (.error (retryExhausted lastErr), 0)
  | fuel + 1, attempt, backoff, _ =>
      let slept : Option GoError × Int :=
        if attempt > 1 then
          match sleep attempt backoff with
          | some e => (some e, backoff)
          | none => (none, nextBackoff backoff opt.maxBackoff)
        else (none, backoff)
      match slept with
      | (some e, _) => (.error e, 0)
      | (none, backoff') =>
        match gen attempt with
        | .ok res => (.ok res, 1)
        | .error err =>
          if err = .canceled ∨ err = .deadlineExceeded then (.error err, 1)
          else if ¬ appliedShouldRetry opt err then (.error err, 1)
          else
            let r := retryGenerateAux opt sleep gen fuel (attempt + 1) backoff' (some err)
            (r.1, r.2 + 1)

/-- `retryLanguageModel.Generate`: run the attempt loop from attempt 1
with the configured initial backoff and no recorded error. -/
def retryGenerate (opt : RetryOptions) (sleep : Nat → Int → Option GoError)
    (gen : Nat → Except GoError LanguageModelResponse) :
    Except GoError LanguageModelResponse × Nat :=
  retryGenerateAux opt sleep gen opt.maxAttempts.toNat 1 opt.initialBackoff none

/-! ## Agent tool-orchestration loop

`agent.RunWithEvents` (`src/provider/completion.go` lines 149-261).
External collaborators are parameters: the model call
(`ai.GenerateTextWithRegistry`, called exactly once per loop iteration, so
it is indexed by the current step counter), the tools' `Execute`
functions, and `json.Marshal` of the tool-result payload.  The `Execute`
result (`any` in Go) is modelled as an opaque string handed to the
marshaller. -/

/-- `ai.GenerateTextResponse`. -/
structure GenerateTextResponse where
  text : String
  stopReason : String
  toolCalls : List ToolCall
  deriving DecidableEq, Repr

/-- `agent.EventType` string constants. -/
def EventTypeMessage : String := "message"

def EventTypeToolStart : String := "tool_start"

def EventTypeToolResult : String := "tool_result"

def EventTypeError : String := "error"

def EventTypeDone : String := "done"

/-- `agent.Event`. -/
structure AgentEvent where
  type : String
  step : Int := 0
  role : String := ""
  content : String := ""
  tool : String := ""
  deriving DecidableEq, Repr

/-- `agent.Tool` (`Execute` returns the `any` value serialised later;
modelled as an opaque string). -/
structure AgentTool where
  name : String
  description : String
  parameters : String
  execute : String → Except GoError String

/-- `agent.Config`.  `Registry` is external; only its nil-ness matters to
the verified code, so it is modelled by `registryPresent`.  The `Tools`
map is modelled as an association list with distinct keys (one entry per
map key; Go map iteration order is unspecified, the list order stands in
for it). -/
structure AgentConfig where
  registryPresent : Bool
  modelName : String
  tools : List (String × AgentTool)
  maxSteps : Int

/-- `agent.Result`. -/
structure AgentResult where
  messages : List Message
  finalText : String
  steps : Int
  deriving DecidableEq, Repr

/-- `(*Config).validate`. -/
def AgentConfig.validate (c : AgentConfig) : Option GoError :=
  if ¬ c.registryPresent then
    some (.invalidArgument "Registry" "must not be nil")
  else if c.modelName = "" then
    some (.invalidArgument "ModelName" "must not be empty")
  else none

/-- `agent.maxStepsOrDefault`. -/
def maxStepsOrDefault (v : Int) : Int :=
  if v ≤ 0 then 8 else v

/-- External collaborators of one agent run: the registry-resolved model
call (indexed by the step counter at the moment of the call) and
`json.Marshal` of the `map[string]any` tool-result payload (tool name,
result value). -/
structure AgentEnv where
  gen : Int → List Message → List ToolDefinition → Except GoError GenerateTextResponse
  marshalPayload : String → String → Except GoError String

/-- The tool-definition construction at the top of each loop iteration
(`var toolDefs []ai.ToolDefinition; if len(cfg.Tools) > 0 { ... }`). -/
def buildToolDefs (tools : List (String × AgentTool)) : List ToolDefinition :=
  if tools.length > 0 then
    tools.map fun nt =>
      let params := if nt.2.parameters.length > 0 then nt.2.parameters else ""
      { name := nt.1, description := nt.2.description, parameters := params }
  else []

/-- The map index `cfg.Tools[tc.Name]`. -/
def lookupTool : List (String × AgentTool) → String → Option AgentTool
  | [], _ => none
  | (k, t) :: rest, name => if k = name then some t else lookupTool rest name

/-- The `&ai.UnsupportedFunctionalityError` built for an unregistered tool
name (`fmt.Sprintf` with `%q` quotes the name). -/
def unknownToolError (name : String) : GoError :=
  .unsupportedFunctionality "agent.tool"
    ("no tool registered with name \"" ++ name ++ "\"")

/-- The `&ai.UnsupportedFunctionalityError` built when the step counter
reaches the configured maximum. -/
def maxStepsError (maxSteps : Int) : GoError :=
  .unsupportedFunctionality "agent.maxSteps"
    ("maximum steps (" ++ toString maxSteps ++ ") exceeded")

/-- Result of processing one batch of tool calls: the run-fatal error if
one occurred, the message history after the batch (including any
tool-result messages appended before a failure), the events emitted, and
how many `Execute` calls ran. -/
structure BatchResult where
  err : Option GoError
  messages : List Message
  events : List AgentEvent
  execs : Nat
  deriving Repr

/-- The `for _, tc := range res.ToolCalls` batch loop of `RunWithEvents`
(completion.go lines 222-257). -/
def processToolCalls (env : AgentEnv) (tools : List (String × AgentTool))
    (steps : Int) : List ToolCall → List Message → BatchResult
  | [], messages => { err := none, messages := messages, events := [], execs := 0 }
  | tc :: rest, messages =>
    match lookupTool tools tc.name with
    | none =>
      let e := unknownToolError tc.name
      { err := some e, messages := messages
        events := [{ type := EventTypeError, step := steps,
                     content := e.errString, tool := tc.name }]
        execs := 0 }
    | some tool =>
      let startEv : AgentEvent := { type := EventTypeToolStart, step := steps, tool := tool.name }
      match tool.execute tc.rawArguments with
      | .error err =>
        { err := some err, messages := messages
          events := [startEv,
            { type := EventTypeError, step := steps,
              content := err.errString, tool := tool.name }]
          execs := 1 }
      | .ok result =>
        match env.marshalPayload tool.name result with
        | .error err =>
          { err := some err, messages := messages
            events := [startEv,
              { type := EventTypeError, step := steps,
                content := err.errString, tool := tool.name }]
            execs := 1 }
        | .ok data =>
          let messages := messages ++ [{ role := RoleTool, content := data }]
          let resEv : AgentEvent := { type := EventTypeToolResult, step := steps, tool := tool.name }
          let r := processToolCalls env tools steps rest messages
          { err := r.err, messages := r.messages
            events := startEv :: resEv :: r.events
            execs := r.execs + 1 }

/-- Observable trace of one agent run: the returned `(*Result, error)`
pair (`outcome`), the events handed to the emitter, instrumentation
counting model calls and tool executions, and the internal message
history at the moment the function returned. -/
structure RunTrace where
  outcome : Except GoError AgentResult
  events : List AgentEvent
  genCalls : Nat
  toolExecs : Nat
  history : List Message
  deriving Repr

/-- The trace produced by the `steps >= maxSteps` exit. -/
def maxStepsTrace (maxSteps steps : Int) (messages : List Message) : RunTrace :=
  { outcome := .error (maxStepsError maxSteps)
    events := [{ type := EventTypeError, step := steps,
                 content := (maxStepsError maxSteps).errString }]
    genCalls := 0, toolExecs := 0, history := messages }

/-- The `for { ... }` loop of `RunWithEvents` (completion.go lines
164-260).  `steps` starts at 0 and increases by one per iteration, so the
loop runs at most `maxSteps` iterations; `fuel` is `maxSteps.toNat + 1`
at entry and therefore never reaches 0 before the `steps >= maxSteps`
exit fires — the fuel-0 branch repeats that exit's result so that the
function is total. -/
def runLoop (env : AgentEnv) (cfg : AgentConfig) (maxSteps : Int) :
    Nat → Int → List Message → RunTrace
  | 0, steps, messages => maxStepsTrace maxSteps steps messages
  | fuel + 1, steps, messages =>
    if steps ≥ maxSteps then maxStepsTrace maxSteps steps messages
    else
      let toolDefs := buildToolDefs cfg.tools
      match env.gen steps messages toolDefs with
      | .error err =>
        { outcome := .error err
          events := [{ type := EventTypeError, step := steps, content := err.errString }]
          genCalls := 1, toolExecs := 0, history := messages }
      | .ok res =>
        let withText : List Message × List AgentEvent :=
          if res.text ≠ "" then
            (messages ++ [{ role := RoleAssistant, content := res.text }],
             [{ type := EventTypeMessage, step := steps,
                role := RoleAssistant, content := res.text }])
          else (messages, [])
        match withText with
        | (messages, msgEvents) =>
          if res.toolCalls = [] then
            { outcome := .ok { messages := messages, finalText := res.text, steps := steps }
              events := msgEvents ++ [{ type := EventTypeDone, step := steps }]
              genCalls := 1, toolExecs := 0, history := messages }
          else
            let batch := processToolCalls env cfg.tools steps res.toolCalls messages
            match batch.err with
            | some err =>
              { outcome := .error err
                events := msgEvents ++ batch.events
                genCalls := 1, toolExecs := batch.execs, history := batch.messages }
            | none =>
              let r := runLoop env cfg maxSteps fuel (steps + 1) batch.messages
              { outcome := r.outcome
                events := msgEvents ++ batch.events ++ r.events
                genCalls := r.genCalls + 1
                toolExecs := r.toolExecs + batch.execs
                history := r.history }

/-- `agent.RunWithEvents`.  `emitterPresent` models `emit != nil`: the
`emitEvent` closure forwards each event to the emitter only in that case,
and the emitter has no other capability, so the delivered-event list is
the trace's event list or empty.  `initialMessages` is copied
(`append([]ai.Message(nil), initialMessages...)`) before any append. -/
def RunWithEvents (env : AgentEnv) (cfg : AgentConfig)
    (initialMessages : List Message) (emitterPresent : Bool) : RunTrace :=
  match cfg.validate with
  | some err =>
    { outcome := .error err, events := [], genCalls := 0, toolExecs := 0
      history := initialMessages }
  | none =>
    let messages := initialMessages
    let maxSteps := maxStepsOrDefault cfg.maxSteps
    let t := runLoop env cfg maxSteps (maxSteps.toNat + 1) 0 messages
    { t with events := if emitterPresent then t.events else [] }

/-- `agent.Run`: `RunWithEvents` with a nil emitter. -/
def Run (env : AgentEnv) (cfg : AgentConfig) (initialMessages : List Message) : RunTrace :=
  RunWithEvents env cfg initialMessages false

/-- The message history after the `if res.Text != ""` assistant-message
append at the top of a loop iteration. -/
def msgsAfterText (messages : List Message) (res : GenerateTextResponse) : List Message :=
  if res.text ≠ "" then messages ++ [{ role := RoleAssistant, content := res.text }]
  else messages

/-- The events emitted by the `if res.Text != ""` block. -/
def textEvents (steps : Int) (res : GenerateTextResponse) : List AgentEvent :=
  if res.text ≠ "" then
    [{ type := EventTypeMessage, step := steps, role := RoleAssistant, content := res.text }]
  else []

/-- A tool call whose processing succeeds end to end: its name is
registered, `Execute` succeeds, and the payload marshals. -/
def toolCallSucceeds (env : AgentEnv) (tools : List (String × AgentTool))
    (tc : ToolCall) : Prop :=
  ∃ tool rv data, lookupTool tools tc.name = some tool ∧
    tool.execute tc.rawArguments = .ok rv ∧
    env.marshalPayload tool.name rv = .ok data

/-- A registered tool used by the concrete agent scenarios below. -/
def goodTool : AgentTool :=
  { name := "good", description := "a tool", parameters := ""
    execute := fun _ => .ok "42" }

/-- A concrete agent configuration with exactly one registered tool. -/
def oneToolCfg : AgentConfig :=
  { registryPresent := true, modelName := "model"
    tools := [("good", goodTool)], maxSteps := 8 }

/-- `oneToolCfg` with `MaxSteps = 1`. -/
def maxOneCfg : AgentConfig :=
  { oneToolCfg with maxSteps := 1 }

/-- An environment whose model answers the first reasoning call with a
batch of two tool calls — the registered `good` followed by the
unregistered `missing` — and any later call with no tool calls. -/
def mixedBatchEnv : AgentEnv :=
  { gen := fun k _ _ =>
      if k = 0 then
        .ok { text := "", stopReason := ""
              toolCalls := [{ id := "1", name := "good", rawArguments := "a" },
                            { id := "2", name := "missing", rawArguments := "b" }] }
      else .ok { text := "done", stopReason := "stop", toolCalls := [] }
    marshalPayload := fun t r => .ok (t ++ "=" ++ r) }

/-- An environment whose model requests the `good` tool once and then
answers with plain text. -/
def twoStepEnv : AgentEnv :=
  { gen := fun k _ _ =>
      if k = 0 then
        .ok { text := "", stopReason := ""
              toolCalls := [{ id := "1", name := "good", rawArguments := "a" }] }
      else .ok { text := "done", stopReason := "stop", toolCalls := [] }
    marshalPayload := fun t r => .ok (t ++ "=" ++ r) }

/-- An environment whose model requests the `good` tool on every call. -/
def alwaysToolEnv : AgentEnv :=
  { gen := fun _ _ _ =>
      .ok { text := "", stopReason := ""
            toolCalls := [{ id := "1", name := "good", rawArguments := "a" }] }
    marshalPayload := fun t r => .ok (t ++ "=" ++ r) }

/-! ## Lemmas about the scanning loops -/

theorem hasPreGo_ne_empty {s : String} (h : hasPreGo s "data:" = true) : s ≠ "" := by
  intro he
  rw [he] at h
  exact absurd h (by decide)

theorem chatNextLoop_skip (parseChunk : String → Except GoError OpenAIChatStreamChunk)
    {l : String} (rest : List String) (readErr : Option GoError)
    (h : skippableLine l = true) :
    chatNextLoop parseChunk (l :: rest) readErr = chatNextLoop parseChunk rest readErr := by
  have hpre : hasPreGo (trimSpaceGo l) "data:" = false := by
    simpa [skippableLine] using h
  simp only [chatNextLoop]
  by_cases h0 : trimSpaceGo l = ""
  · simp [h0]
  · simp [h0, hpre]

theorem chatNextLoop_skipAll (parseChunk : String → Except GoError OpenAIChatStreamChunk)
    (noise rest : List String) (readErr : Option GoError)
    (h : ∀ x ∈ noise, skippableLine x = true) :
    chatNextLoop parseChunk (noise ++ rest) readErr = chatNextLoop parseChunk rest readErr := by
  induction noise with
  | nil => rfl
  | cons a as ih =>
    rw [List.cons_append, chatNextLoop_skip parseChunk _ _ (h a (by simp))]
    exact ih fun x hx => h x (by simp [hx])

theorem chatNextLoop_doneLine (parseChunk : String → Except GoError OpenAIChatStreamChunk)
    {l : String} (rest : List String) (readErr : Option GoError)
    (h : isDoneLine l = true) :
    chatNextLoop parseChunk (l :: rest) readErr = (.ok { done := true }, rest, true) := by
  rw [isDoneLine, Bool.and_eq_true, beq_iff_eq] at h
  have h0 : trimSpaceGo l ≠ "" := hasPreGo_ne_empty h.1
  simp only [chatNextLoop]
  simp [h0, h.1, h.2]

theorem chatNextLoop_parseErr (parseChunk : String → Except GoError OpenAIChatStreamChunk)
    {l : String} (rest : List String) (readErr : Option GoError) {e : GoError}
    (hpre : hasPreGo (trimSpaceGo l) "data:" = true)
    (hnd : dataPayload l ≠ "[DONE]")
    (hp : parseChunk (dataPayload l) = .error e) :
    chatNextLoop parseChunk (l :: rest) readErr = (.error e, rest, false) := by
  rw [dataPayload] at hnd hp
  have h0 : trimSpaceGo l ≠ "" := hasPreGo_ne_empty hpre
  simp only [chatNextLoop]
  simp [h0, hpre, hnd, hp]

theorem messagesNextLoop_skip (parseEvent : String → Except GoError AnthropicStreamEvent)
    {l : String} (rest : List String) (readErr : Option GoError)
    (h : skippableLine l = true) :
    messagesNextLoop parseEvent (l :: rest) readErr = messagesNextLoop parseEvent rest readErr := by
  have hpre : hasPreGo (trimSpaceGo l) "data:" = false := by
    simpa [skippableLine] using h
  simp only [messagesNextLoop]
  by_cases h0 : trimSpaceGo l = ""
  · simp [h0]
  · simp [h0, hpre]

theorem messagesNextLoop_skipAll (parseEvent : String → Except GoError AnthropicStreamEvent)
    (noise rest : List String) (readErr : Option GoError)
    (h : ∀ x ∈ noise, skippableLine x = true) :
    messagesNextLoop parseEvent (noise ++ rest) readErr = messagesNextLoop parseEvent rest readErr := by
  induction noise with
  | nil => rfl
  | cons a as ih =>
    rw [List.cons_append, messagesNextLoop_skip parseEvent _ _ (h a (by simp))]
    exact ih fun x hx => h x (by simp [hx])

theorem messagesNextLoop_doneLine (parseEvent : String → Except GoError AnthropicStreamEvent)
    {l : String} (rest : List String) (readErr : Option GoError)
    (h : isDoneLine l = true) :
    messagesNextLoop parseEvent (l :: rest) readErr = (.ok { done := true }, rest, true) := by
  rw [isDoneLine, Bool.and_eq_true, beq_iff_eq] at h
  have h0 : trimSpaceGo l ≠ "" := hasPreGo_ne_empty h.1
  simp only [messagesNextLoop]
  simp [h0, h.1, h.2]

theorem messagesNextLoop_parseErr (parseEvent : String → Except GoError AnthropicStreamEvent)
    {l : String} (rest : List String) (readErr : Option GoError) {e : GoError}
    (hpre : hasPreGo (trimSpaceGo l) "data:" = true)
    (hnd : dataPayload l ≠ "[DONE]")
    (hp : parseEvent (dataPayload l) = .error e) :
    messagesNextLoop parseEvent (l :: rest) readErr = (.error e, rest, false) := by
  rw [dataPayload] at hnd hp
  have h0 : trimSpaceGo l ≠ "" := hasPreGo_ne_empty hpre
  simp only [messagesNextLoop]
  simp [h0, hpre, hnd, hp]

/-! ## Claims about the streaming delta protocol -/

/-- C1: when the next data payload of a not-yet-done stream is the literal
`[DONE]` sentinel (possibly preceded by skippable noise lines), `Next`
returns a `done=true` delta with no error and marks the stream terminally
done with exactly the lines after the sentinel left unread; and every
call to `Next` on a terminally done stream returns the same terminal
`done=true` delta with no error and leaves the stream state — in
particular the unread source — untouched.  Both for the OpenAI
`chatStream` and the Anthropic `messagesStream`. -/
theorem done_sentinel_idempotent_terminal
    (parseChunk : String → Except GoError OpenAIChatStreamChunk)
    (parseEvent : String → Except GoError AnthropicStreamEvent)
    (noise : List String) {l : String} (rest : List String)
    (sc : ChatStreamState) (sm : MessagesStreamState)
    (hnoise : ∀ x ∈ noise, skippableLine x = true)
    (hl : isDoneLine l = true)
    (hcd : sc.done = false) (hcl : sc.source.lines = noise ++ l :: rest)
    (hmd : sm.done = false) (hml : sm.source.lines = noise ++ l :: rest) :
    (chatStreamNext parseChunk sc =
        (.ok { done := true },
         { source := { lines := rest, readErr := sc.source.readErr }, done := true })
      ∧ ∀ s' : ChatStreamState, s'.done = true →
          chatStreamNext parseChunk s' = (.ok { done := true }, s'))
    ∧ (messagesStreamNext parseEvent sm =
        (.ok { done := true },
         { source := { lines := rest, readErr := sm.source.readErr }, done := true })
      ∧ ∀ s' : MessagesStreamState, s'.done = true →
          messagesStreamNext parseEvent s' = (.ok { done := true }, s')) := by
  refine ⟨⟨?_, ?_⟩, ?_, ?_⟩
  · simp only [chatStreamNext, hcd, hcl]
    rw [chatNextLoop_skipAll parseChunk noise _ _ hnoise,
      chatNextLoop_doneLine parseChunk rest _ hl]
    simp
  · intro s' h'
    simp [chatStreamNext, h']
  · simp only [messagesStreamNext, hmd, hml]
    rw [messagesNextLoop_skipAll parseEvent noise _ _ hnoise,
      messagesNextLoop_doneLine parseEvent rest _ hl]
    simp
  · intro s' h'
    simp [messagesStreamNext, h']

/-- C1 witness: a concrete stream whose input is a blank line, an SSE
comment line and the sentinel, for both stream kinds. -/
theorem done_sentinel_idempotent_terminal_witness :
    (chatStreamNext (fun s => .error (.generic s))
        { source := { lines := ["", ": keep-alive", "data: [DONE]", "data: x"], readErr := none },
          done := false } =
      (.ok { done := true },
       { source := { lines := ["data: x"], readErr := none }, done := true }))
    ∧ (messagesStreamNext (fun s => .error (.generic s))
        { source := { lines := ["", ": keep-alive", "data: [DONE]", "data: x"], readErr := none },
          done := false } =
      (.ok { done := true },
       { source := { lines := ["data: x"], readErr := none }, done := true })) := by
  have h := done_sentinel_idempotent_terminal
    (fun s => .error (.generic s)) (fun s => .error (.generic s))
    ["", ": keep-alive"] (["data: x"])
    { source := { lines := ["", ": keep-alive", "data: [DONE]", "data: x"], readErr := none },
      done := false }
    { source := { lines := ["", ": keep-alive", "data: [DONE]", "data: x"], readErr := none },
      done := false }
    (by decide) (by decide) rfl rfl rfl rfl
  exact ⟨h.1.1, h.2.1⟩

/-- C7: a stream whose remaining input reaches end of input (no read
error) with only skippable lines — no `[DONE]` sentinel and no end-of-turn
event — yields a `done=true` delta with no error, and the stream becomes
terminally done.  Both for `chatStream` and `messagesStream`. -/
theorem eof_without_sentinel_is_done
    (parseChunk : String → Except GoError OpenAIChatStreamChunk)
    (parseEvent : String → Except GoError AnthropicStreamEvent)
    (sc : ChatStreamState) (sm : MessagesStreamState)
    (hcd : sc.done = false) (hcl : ∀ x ∈ sc.source.lines, skippableLine x = true)
    (hce : sc.source.readErr = none)
    (hmd : sm.done = false) (hml : ∀ x ∈ sm.source.lines, skippableLine x = true)
    (hme : sm.source.readErr = none) :
    chatStreamNext parseChunk sc =
      (.ok { done := true }, { source := { lines := [], readErr := none }, done := true })
    ∧ messagesStreamNext parseEvent sm =
      (.ok { done := true }, { source := { lines := [], readErr := none }, done := true }) := by
  constructor
  · simp only [chatStreamNext, hcd, hce]
    have : sc.source.lines = sc.source.lines ++ [] := by simp
    rw [this, chatNextLoop_skipAll parseChunk _ _ _ (by simpa using hcl)]
    rfl
  · simp only [messagesStreamNext, hmd, hme]
    have : sm.source.lines = sm.source.lines ++ [] := by simp
    rw [this, messagesNextLoop_skipAll parseEvent _ _ _ (by simpa using hml)]
    rfl

/-- C7 witness: concrete streams whose input is protocol noise followed by
clean EOF. -/
theorem eof_without_sentinel_is_done_witness :
    chatStreamNext (fun s => .error (.generic s))
        { source := { lines := ["event: ping", ""], readErr := none }, done := false } =
      (.ok { done := true }, { source := { lines := [], readErr := none }, done := true })
    ∧ messagesStreamNext (fun s => .error (.generic s))
        { source := { lines := ["event: ping", ""], readErr := none }, done := false } =
      (.ok { done := true }, { source := { lines := [], readErr := none }, done := true }) :=
  eof_without_sentinel_is_done
    (fun s => .error (.generic s)) (fun s => .error (.generic s))
    { source := { lines := ["event: ping", ""], readErr := none }, done := false }
    { source := { lines := ["event: ping", ""], readErr := none }, done := false }
    rfl (by decide) rfl rfl (by decide) rfl

/-- C8: when the next data payload is not the `[DONE]` sentinel and fails
to parse as the expected structured event, `Next` returns that parse
error immediately and yields no delta: the malformed event is not skipped,
the loop does not continue past it, and no internal retry happens (the
stream is not marked done, and only the lines up to and including the
malformed one were consumed).  Both for `chatStream` and
`messagesStream`. -/
theorem malformed_payload_is_fatal
    (parseChunk : String → Except GoError OpenAIChatStreamChunk)
    (parseEvent : String → Except GoError AnthropicStreamEvent)
    (noise : List String) {l : String} (rest : List String)
    (sc : ChatStreamState) (sm : MessagesStreamState) (e₁ e₂ : GoError)
    (hnoise : ∀ x ∈ noise, skippableLine x = true)
    (hdata : hasPreGo (trimSpaceGo l) "data:" = true)
    (hnd : dataPayload l ≠ "[DONE]")
    (hp₁ : parseChunk (dataPayload l) = .error e₁)
    (hp₂ : parseEvent (dataPayload l) = .error e₂)
    (hcd : sc.done = false) (hcl : sc.source.lines = noise ++ l :: rest)
    (hmd : sm.done = false) (hml : sm.source.lines = noise ++ l :: rest) :
    chatStreamNext parseChunk sc =
      (.error e₁,
       { source := { lines := rest, readErr := sc.source.readErr }, done := false })
    ∧ messagesStreamNext parseEvent sm =
      (.error e₂,
       { source := { lines := rest, readErr := sm.source.readErr }, done := false }) := by
  constructor
  · simp only [chatStreamNext, hcd, hcl]
    rw [chatNextLoop_skipAll parseChunk noise _ _ hnoise,
      chatNextLoop_parseErr parseChunk rest _ hdata hnd hp₁]
    simp
  · simp only [messagesStreamNext, hmd, hml]
    rw [messagesNextLoop_skipAll parseEvent noise _ _ hnoise,
      messagesNextLoop_parseErr parseEvent rest _ hdata hnd hp₂]
    simp

/-- C8 witness: a malformed `data:` payload after one noise line; the
parser rejects the payload `oops` and `Next` surfaces exactly that
error. -/
theorem malformed_payload_is_fatal_witness :
    chatStreamNext (fun s => .error (.generic s))
        { source := { lines := ["", "data: oops", "data: [DONE]"], readErr := none },
          done := false } =
      (.error (.generic "oops"),
       { source := { lines := ["data: [DONE]"], readErr := none }, done := false })
    ∧ messagesStreamNext (fun s => .error (.generic s))
        { source := { lines := ["", "data: oops", "data: [DONE]"], readErr := none },
          done := false } =
      (.error (.generic "oops"),
       { source := { lines := ["data: [DONE]"], readErr := none }, done := false }) :=
  malformed_payload_is_fatal
    (fun s => .error (.generic s)) (fun s => .error (.generic s))
    [""] (["data: [DONE]"])
    { source := { lines := ["", "data: oops", "data: [DONE]"], readErr := none }, done := false }
    { source := { lines := ["", "data: oops", "data: [DONE]"], readErr := none }, done := false }
    (.generic "oops") (.generic "oops")
    (by decide) (by decide) (by decide) (by decide) (by decide)
    rfl rfl rfl rfl

/-! ## Claims about the retry middleware -/

theorem defaultRetryOptions_maxAttempts_pos (o : RetryOptions) :
    0 < (defaultRetryOptions o).maxAttempts := by
  unfold defaultRetryOptions
  dsimp only
  split <;> omega

/-- C4: with the default configuration (`MaxAttempts` defaulted to 3) and
a predicate that classifies every error as transient, a wrapped call that
fails on its first two invocations (with non-cancellation errors) and
succeeds on the third is invoked exactly three times and the third
invocation's response is returned. -/
theorem retry_two_failures_then_success
    (e₁ e₂ : GoError) (r : LanguageModelResponse)
    (sleep : Nat → Int → Option GoError)
    (h₁ : e₁ ≠ .canceled) (h₁' : e₁ ≠ .deadlineExceeded)
    (h₂ : e₂ ≠ .canceled) (h₂' : e₂ ≠ .deadlineExceeded)
    (hsleep : ∀ n d, sleep n d = none) :
    retryGenerate
      (defaultRetryOptions
        { maxAttempts := 0, initialBackoff := 0, maxBackoff := 0,
          shouldRetry := some fun _ => true })
      sleep
      (fun n => if n = 1 then .error e₁ else if n = 2 then .error e₂ else .ok r)
      = (.ok r, 3) := by
  simp [retryGenerate, retryGenerateAux, defaultRetryOptions, appliedShouldRetry,
    hsleep, h₁, h₁', h₂, h₂']

/-- C4 witness: a transient timeout then a transient temporary network
error then success. -/
theorem retry_two_failures_then_success_witness :
    retryGenerate
      (defaultRetryOptions
        { maxAttempts := 0, initialBackoff := 0, maxBackoff := 0,
          shouldRetry := some fun _ => true })
      (fun _ _ => none)
      (fun n =>
        if n = 1 then .error (.netErr true false "timeout")
        else if n = 2 then .error (.netErr false true "temporary")
        else .ok { text := "ok", stopReason := "stop", toolCalls := [] })
      = (.ok { text := "ok", stopReason := "stop", toolCalls := [] }, 3) :=
  retry_two_failures_then_success
    (.netErr true false "timeout") (.netErr false true "temporary")
    { text := "ok", stopReason := "stop", toolCalls := [] }
    (fun _ _ => none)
    (by decide) (by decide) (by decide) (by decide)
    (fun _ _ => rfl)

/-- C5: cancellation always wins over retry.  First, whenever the
wrapped call returns `context.Canceled` or `context.DeadlineExceeded` —
from any reachable loop state, at any attempt — the wrapper propagates
exactly that error with no further attempt (exactly one wrapped-call
invocation from that point).  Second, a first-attempt cancellation means
exactly one attempt in the whole operation.  Third, if the first attempt
fails with a transient error and the context is cancelled during the
backoff sleep before attempt 2, the whole operation returns the
context's error — never the transient-retry error — and the wrapped
call is not invoked again. -/
theorem cancellation_never_retried :
    (∀ (opt : RetryOptions) (sleep : Nat → Int → Option GoError)
       (gen : Nat → Except GoError LanguageModelResponse) (e : GoError)
       (fuel attempt : Nat) (backoff : Int) (lastErr : Option GoError),
       (e = .canceled ∨ e = .deadlineExceeded) →
       (attempt = 1 ∨ sleep attempt backoff = none) →
       gen attempt = .error e →
       retryGenerateAux opt sleep gen (fuel + 1) attempt backoff lastErr = (.error e, 1))
    ∧ (∀ (opt : RetryOptions) (sleep : Nat → Int → Option GoError)
         (gen : Nat → Except GoError LanguageModelResponse) (e : GoError),
         (e = .canceled ∨ e = .deadlineExceeded) →
         gen 1 = .error e →
         retryGenerate (defaultRetryOptions opt) sleep gen = (.error e, 1))
    ∧ (∀ (opt : RetryOptions) (sleep : Nat → Int → Option GoError)
         (gen : Nat → Except GoError LanguageModelResponse) (err e : GoError),
         2 ≤ (defaultRetryOptions opt).maxAttempts →
         gen 1 = .error err →
         err ≠ .canceled → err ≠ .deadlineExceeded →
         appliedShouldRetry (defaultRetryOptions opt) err = true →
         sleep 2 (defaultRetryOptions opt).initialBackoff = some e →
         retryGenerate (defaultRetryOptions opt) sleep gen = (.error e, 1)) := by
  have general : ∀ (opt : RetryOptions) (sleep : Nat → Int → Option GoError)
      (gen : Nat → Except GoError LanguageModelResponse) (e : GoError)
      (fuel attempt : Nat) (backoff : Int) (lastErr : Option GoError),
      (e = .canceled ∨ e = .deadlineExceeded) →
      (attempt = 1 ∨ sleep attempt backoff = none) →
      gen attempt = .error e →
      retryGenerateAux opt sleep gen (fuel + 1) attempt backoff lastErr = (.error e, 1) := by
    intro opt sleep gen e fuel attempt backoff lastErr he hsl hgen
    by_cases hgt : attempt > 1
    · have hs : sleep attempt backoff = none := by
        rcases hsl with h1 | hs
        · omega
        · exact hs
      rcases he with rfl | rfl <;> simp [retryGenerateAux, hgt, hs, hgen]
    · rcases he with rfl | rfl <;> simp [retryGenerateAux, hgt, hgen]
  refine ⟨general, ?_, ?_⟩
  · intro opt sleep gen e he hgen
    have hpos := defaultRetryOptions_maxAttempts_pos opt
    obtain ⟨f, hf⟩ : ∃ f, (defaultRetryOptions opt).maxAttempts.toNat = f + 1 :=
      ⟨(defaultRetryOptions opt).maxAttempts.toNat - 1, by omega⟩
    rw [retryGenerate, hf]
    exact general (defaultRetryOptions opt) sleep gen e f 1
      (defaultRetryOptions opt).initialBackoff none he (Or.inl rfl) hgen
  · intro opt sleep gen err e hmax hgen hc hd hretry hsleep
    obtain ⟨f, hf⟩ : ∃ f, (defaultRetryOptions opt).maxAttempts.toNat = f + 2 :=
      ⟨(defaultRetryOptions opt).maxAttempts.toNat - 2, by omega⟩
    rw [retryGenerate, hf]
    simp [retryGenerateAux, hgen, hc, hd, hretry, hsleep]

/-- C5 witness: a first-attempt cancellation is propagated after exactly
one attempt, and a context cancelled during the backoff sleep aborts with
the context's error instead of the transient error. -/
theorem cancellation_never_retried_witness :
    retryGenerate
      (defaultRetryOptions
        { maxAttempts := 0, initialBackoff := 0, maxBackoff := 0, shouldRetry := none })
      (fun _ _ => none) (fun _ => .error .canceled)
      = (.error .canceled, 1)
    ∧ retryGenerate
      (defaultRetryOptions
        { maxAttempts := 0, initialBackoff := 0, maxBackoff := 0, shouldRetry := none })
      (fun _ _ => some .canceled) (fun _ => .error (.netErr true false "timeout"))
      = (.error .canceled, 1) :=
  ⟨cancellation_never_retried.2.1 _ _ _ .canceled (Or.inl rfl) rfl,
   cancellation_never_retried.2.2 _ _ _ (.netErr true false "timeout") .canceled
     (by decide) rfl (by decide) (by decide) (by decide) rfl⟩

/-! ## Lemmas about the agent loop -/

theorem runLoop_max_step (env : AgentEnv) (cfg : AgentConfig) {maxSteps : Int}
    (fuel : Nat) {steps : Int} (messages : List Message) (h : steps ≥ maxSteps) :
    runLoop env cfg maxSteps (fuel + 1) steps messages =
      maxStepsTrace maxSteps steps messages := by
  simp [runLoop, h]

theorem runLoop_genErr_step (env : AgentEnv) (cfg : AgentConfig) {maxSteps : Int}
    (fuel : Nat) {steps : Int} {messages : List Message} {err : GoError}
    (hlt : ¬ steps ≥ maxSteps)
    (hgen : env.gen steps messages (buildToolDefs cfg.tools) = .error err) :
    runLoop env cfg maxSteps (fuel + 1) steps messages =
      { outcome := .error err
        events := [{ type := EventTypeError, step := steps, content := err.errString }]
        genCalls := 1, toolExecs := 0, history := messages } := by
  simp [runLoop, hlt, hgen]

theorem runLoop_done_step (env : AgentEnv) (cfg : AgentConfig) {maxSteps : Int}
    (fuel : Nat) {steps : Int} {messages : List Message} {res : GenerateTextResponse}
    (hlt : ¬ steps ≥ maxSteps)
    (hgen : env.gen steps messages (buildToolDefs cfg.tools) = .ok res)
    (hnotc : res.toolCalls = []) :
    runLoop env cfg maxSteps (fuel + 1) steps messages =
      { outcome := .ok { messages := msgsAfterText messages res
                         finalText := res.text, steps := steps }
        events := textEvents steps res ++ [{ type := EventTypeDone, step := steps }]
        genCalls := 1, toolExecs := 0, history := msgsAfterText messages res } := by
  simp only [runLoop, hlt, if_false, hgen]
  by_cases ht : res.text = "" <;>
    simp [msgsAfterText, textEvents, ht, hnotc]

theorem runLoop_batch_step (env : AgentEnv) (cfg : AgentConfig) {maxSteps : Int}
    (fuel : Nat) {steps : Int} {messages : List Message} {res : GenerateTextResponse}
    (hlt : ¬ steps ≥ maxSteps)
    (hgen : env.gen steps messages (buildToolDefs cfg.tools) = .ok res)
    (hne : res.toolCalls ≠ []) :
    runLoop env cfg maxSteps (fuel + 1) steps messages =
      (let batch := processToolCalls env cfg.tools steps res.toolCalls (msgsAfterText messages res)
       match batch.err with
       | some err =>
         { outcome := .error err
           events := textEvents steps res ++ batch.events
           genCalls := 1, toolExecs := batch.execs, history := batch.messages }
       | none =>
         let r := runLoop env cfg maxSteps fuel (steps + 1) batch.messages
         { outcome := r.outcome
           events := textEvents steps res ++ batch.events ++ r.events
           genCalls := r.genCalls + 1
           toolExecs := r.toolExecs + batch.execs
           history := r.history }) := by
  simp only [runLoop, hlt, if_false, hgen]
  by_cases ht : res.text = "" <;>
    simp [msgsAfterText, textEvents, ht, hne]

theorem processToolCalls_ok (env : AgentEnv) (tools : List (String × AgentTool))
    (steps : Int) (tcs : List ToolCall) :
    ∀ messages : List Message, (∀ tc ∈ tcs, toolCallSucceeds env tools tc) →
      (processToolCalls env tools steps tcs messages).err = none ∧
      (processToolCalls env tools steps tcs messages).execs = tcs.length ∧
      ∃ extra, (processToolCalls env tools steps tcs messages).messages = messages ++ extra ∧
        extra.length = tcs.length ∧ ∀ m ∈ extra, m.role = RoleTool := by
  induction tcs with
  | nil =>
    intro messages _
    exact ⟨rfl, rfl, [], by simp [processToolCalls], by simp, by simp⟩
  | cons tc rest ih =>
    intro messages h
    obtain ⟨tool, rv, data, hl, he, hm⟩ := h tc (by simp)
    obtain ⟨h1, h2, extra, hmsg, hlen, hrole⟩ :=
      ih (messages ++ [{ role := RoleTool, content := data }])
        (fun x hx => h x (by simp [hx]))
    simp only [processToolCalls, hl, he, hm]
    refine ⟨h1, by simp [h2], { role := RoleTool, content := data } :: extra, ?_, by simp [hlen], ?_⟩
    · rw [hmsg]; simp
    · intro m hm'
      rcases List.mem_cons.mp hm' with h' | h'
      · subst h'; rfl
      · exact hrole m h'

theorem processToolCalls_extends (env : AgentEnv) (tools : List (String × AgentTool))
    (steps : Int) (tcs : List ToolCall) :
    ∀ messages : List Message,
      ∃ extra, (processToolCalls env tools steps tcs messages).messages = messages ++ extra ∧
        ∀ m ∈ extra, m.role = RoleTool := by
  induction tcs with
  | nil =>
    intro messages
    exact ⟨[], by simp [processToolCalls], by simp⟩
  | cons tc rest ih =>
    intro messages
    cases hl : lookupTool tools tc.name with
    | none => exact ⟨[], by simp [processToolCalls, hl], by simp⟩
    | some tool =>
      cases he : tool.execute tc.rawArguments with
      | error err => exact ⟨[], by simp [processToolCalls, hl, he], by simp⟩
      | ok rv =>
        cases hm : env.marshalPayload tool.name rv with
        | error err => exact ⟨[], by simp [processToolCalls, hl, he, hm], by simp⟩
        | ok data =>
          obtain ⟨extra, hx, hr⟩ := ih (messages ++ [{ role := RoleTool, content := data }])
          refine ⟨{ role := RoleTool, content := data } :: extra,
            by simp [processToolCalls, hl, he, hm, hx], ?_⟩
          intro m hm'
          rcases List.mem_cons.mp hm' with h' | h'
          · subst h'; rfl
          · exact hr m h'

theorem processToolCalls_unknown (env : AgentEnv) (tools : List (String × AgentTool))
    (steps : Int) (pre : List ToolCall) (bad : ToolCall) (post : List ToolCall) :
    ∀ messages : List Message, (∀ tc ∈ pre, toolCallSucceeds env tools tc) →
      lookupTool tools bad.name = none →
      (processToolCalls env tools steps (pre ++ bad :: post) messages).err =
        some (unknownToolError bad.name) ∧
      (processToolCalls env tools steps (pre ++ bad :: post) messages).execs = pre.length ∧
      ∃ extra,
        (processToolCalls env tools steps (pre ++ bad :: post) messages).messages =
          messages ++ extra ∧
        extra.length = pre.length ∧ ∀ m ∈ extra, m.role = RoleTool := by
  induction pre with
  | nil =>
    intro messages _ hbad
    refine ⟨?_, ?_, [], ?_, ?_, ?_⟩ <;> simp [processToolCalls, hbad]
  | cons tc rest ih =>
    intro messages h hbad
    obtain ⟨tool, rv, data, hl, he, hm⟩ := h tc (by simp)
    obtain ⟨h1, h2, extra, hmsg, hlen, hrole⟩ :=
      ih (messages ++ [{ role := RoleTool, content := data }])
        (fun x hx => h x (by simp [hx])) hbad
    simp only [List.cons_append, List.append_eq, processToolCalls, hl, he, hm]
    refine ⟨h1, by simp [h2], { role := RoleTool, content := data } :: extra, ?_, by simp [hlen], ?_⟩
    · rw [hmsg]; simp
    · intro m hm'
      rcases List.mem_cons.mp hm' with h' | h'
      · subst h'; rfl
      · exact hrole m h'

/-! ## Claims about the agent loop -/

/-- C9: for every configuration, initial message list and emitter
presence, `RunWithEvents` has the same outcome (`*Result` value and
error), performs the same number of model calls and tool executions, and
ends with the same internal history as `Run`, which passes a nil
emitter: delivering or dropping progress events never changes the run's
result. -/
theorem events_do_not_affect_outcome (env : AgentEnv) (cfg : AgentConfig)
    (initialMessages : List Message) (emitterPresent : Bool) :
    (RunWithEvents env cfg initialMessages emitterPresent).outcome =
      (Run env cfg initialMessages).outcome ∧
    (RunWithEvents env cfg initialMessages emitterPresent).genCalls =
      (Run env cfg initialMessages).genCalls ∧
    (RunWithEvents env cfg initialMessages emitterPresent).toolExecs =
      (Run env cfg initialMessages).toolExecs ∧
    (RunWithEvents env cfg initialMessages emitterPresent).history =
      (Run env cfg initialMessages).history := by
  unfold Run RunWithEvents
  cases cfg.validate <;> simp

/-- C2: if the model returns exactly one tool call on the first reasoning
call — naming a registered tool whose execution and payload marshalling
succeed — and no tool calls on the second reasoning call, then the agent
run performs exactly 2 model calls and exactly 1 tool execution, and
returns (successfully) a `Result` with `Steps = 1`. -/
theorem one_tool_call_then_done
    (env : AgentEnv) (cfg : AgentConfig) (initialMessages : List Message)
    (resp₀ resp₁ : GenerateTextResponse) (tc : ToolCall) (tool : AgentTool)
    (rv data : String) (emitterPresent : Bool)
    (hval : cfg.validate = none)
    (hmax : 2 ≤ maxStepsOrDefault cfg.maxSteps)
    (hgen₀ : ∀ ms ds, env.gen 0 ms ds = .ok resp₀)
    (hgen₁ : ∀ ms ds, env.gen 1 ms ds = .ok resp₁)
    (htc : resp₀.toolCalls = [tc])
    (htool : lookupTool cfg.tools tc.name = some tool)
    (hexec : tool.execute tc.rawArguments = .ok rv)
    (hmarshal : env.marshalPayload tool.name rv = .ok data)
    (hdone : resp₁.toolCalls = []) :
    (RunWithEvents env cfg initialMessages emitterPresent).genCalls = 2 ∧
    (RunWithEvents env cfg initialMessages emitterPresent).toolExecs = 1 ∧
    ∃ res, (RunWithEvents env cfg initialMessages emitterPresent).outcome = .ok res ∧
      res.steps = 1 := by
  set M := maxStepsOrDefault cfg.maxSteps with hM
  have h0 : ¬ (0 : Int) ≥ M := by omega
  have h1lt : ¬ (1 : Int) ≥ M := by omega
  obtain ⟨f, hf⟩ : ∃ f, M.toNat = f + 1 := ⟨M.toNat - 1, by omega⟩
  have hne : resp₀.toolCalls ≠ [] := by simp [htc]
  have hAll : ∀ tc' ∈ resp₀.toolCalls, toolCallSucceeds env cfg.tools tc' := by
    intro tc' h'
    rw [htc, List.mem_singleton] at h'
    subst h'
    exact ⟨tool, rv, data, htool, hexec, hmarshal⟩
  obtain ⟨hbe, hbx, extra, hbm, hlen, hrole⟩ :=
    processToolCalls_ok env cfg.tools 0 resp₀.toolCalls
      (msgsAfterText initialMessages resp₀) hAll
  have hstep0 := runLoop_batch_step env cfg M.toNat h0
    (hgen₀ initialMessages (buildToolDefs cfg.tools)) hne
  have hstep1 := runLoop_done_step env cfg f h1lt
    (hgen₁
      (processToolCalls env cfg.tools 0 resp₀.toolCalls
        (msgsAfterText initialMessages resp₀)).messages
      (buildToolDefs cfg.tools)) hdone
  simp only [hbe, hf, zero_add] at hstep0
  rw [hstep1] at hstep0
  rw [htc] at hbx
  refine ⟨?_, ?_,
    ⟨{ messages := msgsAfterText
          (processToolCalls env cfg.tools 0 resp₀.toolCalls
            (msgsAfterText initialMessages resp₀)).messages resp₁
       finalText := resp₁.text, steps := 1 }, ?_, rfl⟩⟩ <;>
    simp [RunWithEvents, hval, ← hM, hf, hstep0, hbx, htc]

/-- C2 witness: the concrete two-step scenario. -/
theorem one_tool_call_then_done_witness :
    (RunWithEvents twoStepEnv oneToolCfg [{ role := "user", content := "q" }] false).genCalls = 2 ∧
    (RunWithEvents twoStepEnv oneToolCfg [{ role := "user", content := "q" }] false).toolExecs = 1 ∧
    ∃ res,
      (RunWithEvents twoStepEnv oneToolCfg [{ role := "user", content := "q" }] false).outcome =
        .ok res ∧ res.steps = 1 :=
  one_tool_call_then_done twoStepEnv oneToolCfg [{ role := "user", content := "q" }]
    { text := "", stopReason := ""
      toolCalls := [{ id := "1", name := "good", rawArguments := "a" }] }
    { text := "done", stopReason := "stop", toolCalls := [] }
    { id := "1", name := "good", rawArguments := "a" } goodTool "42" "good=42" false
    rfl (by decide) (fun _ _ => rfl) (fun _ _ => rfl) rfl rfl rfl rfl rfl

theorem runLoop_always_tools (env : AgentEnv) (cfg : AgentConfig) (maxSteps : Int)
    (hgen : ∀ (k : Int) (ms : List Message) (ds : List ToolDefinition),
      ∃ resp, env.gen k ms ds = .ok resp ∧ resp.toolCalls ≠ [] ∧
        ∀ tc ∈ resp.toolCalls, toolCallSucceeds env cfg.tools tc) :
    ∀ (fuel : Nat) (steps : Int) (messages : List Message),
      steps ≤ maxSteps → fuel = (maxSteps - steps).toNat + 1 →
      (runLoop env cfg maxSteps fuel steps messages).outcome =
        .error (maxStepsError maxSteps) ∧
      (runLoop env cfg maxSteps fuel steps messages).genCalls =
        (maxSteps - steps).toNat := by
  intro fuel
  induction fuel with
  | zero => intro steps messages hle hfuel; omega
  | succ f ih =>
    intro steps messages hle hfuel
    by_cases hge : steps ≥ maxSteps
    · rw [runLoop_max_step env cfg f messages hge]
      have h0 : (maxSteps - steps).toNat = 0 := by omega
      simp [maxStepsTrace, h0]
    · obtain ⟨resp, hgenk, hne, hAll⟩ := hgen steps messages (buildToolDefs cfg.tools)
      obtain ⟨hbe, -, -, -, -, -⟩ :=
        processToolCalls_ok env cfg.tools steps resp.toolCalls
          (msgsAfterText messages resp) hAll
      have hstep := runLoop_batch_step env cfg f hge hgenk hne
      simp only [hbe] at hstep
      have hih := ih (steps + 1)
        (processToolCalls env cfg.tools steps resp.toolCalls
          (msgsAfterText messages resp)).messages
        (by omega) (by omega)
      rw [hstep]
      refine ⟨by simpa using hih.1, ?_⟩
      have : (maxSteps - steps).toNat = (maxSteps - (steps + 1)).toNat + 1 := by omega
      simpa [this] using hih.2

/-- C3: with `MaxSteps = n ≥ 1` and a model that returns at least one tool
call on every reasoning call — all of which are registered, execute
successfully and marshal — the agent run terminates after exactly `n`
tool-loop iterations (model calls) with the max-steps-exceeded error and
no `Result`, instead of looping back to another reasoning call. -/
theorem max_steps_exceeded_terminates
    (env : AgentEnv) (cfg : AgentConfig) (initialMessages : List Message)
    (n : Int) (emitterPresent : Bool)
    (hval : cfg.validate = none)
    (hn : cfg.maxSteps = n) (hpos : 1 ≤ n)
    (hgen : ∀ (k : Int) (ms : List Message) (ds : List ToolDefinition),
      ∃ resp, env.gen k ms ds = .ok resp ∧ resp.toolCalls ≠ [] ∧
        ∀ tc ∈ resp.toolCalls, toolCallSucceeds env cfg.tools tc) :
    (RunWithEvents env cfg initialMessages emitterPresent).outcome =
      .error (maxStepsError n) ∧
    (RunWithEvents env cfg initialMessages emitterPresent).genCalls = n.toNat := by
  have hMn : maxStepsOrDefault cfg.maxSteps = n := by
    rw [hn, maxStepsOrDefault, if_neg (by omega)]
  have key := runLoop_always_tools env cfg n hgen (n.toNat + 1) 0 initialMessages
    (by omega) (by omega)
  refine ⟨?_, ?_⟩
  · simp only [RunWithEvents, hval, hMn]
    simpa using key.1
  · simp only [RunWithEvents, hval, hMn]
    simpa using key.2

/-- C3 witness: `MaxSteps = 1` with a model that always requests the
registered `good` tool terminates after exactly one iteration with the
max-steps error and no `Result`. -/
theorem max_steps_exceeded_terminates_witness :
    (RunWithEvents alwaysToolEnv maxOneCfg [] false).outcome =
      .error (maxStepsError 1) ∧
    (RunWithEvents alwaysToolEnv maxOneCfg [] false).genCalls = 1 := by
  have h := max_steps_exceeded_terminates alwaysToolEnv maxOneCfg [] 1 false
    (by decide) rfl (by omega)
    (fun k ms ds =>
      ⟨{ text := "", stopReason := ""
         toolCalls := [{ id := "1", name := "good", rawArguments := "a" }] },
       rfl, by simp,
       fun tc htc => by
         have htc' : tc = { id := "1", name := "good", rawArguments := "a" } := by
           simpa using htc
         subst htc'
         exact ⟨goodTool, "42", "good=42", rfl, rfl, rfl⟩⟩)
  simpa using h

theorem runLoop_ok_messages (env : AgentEnv) (cfg : AgentConfig) (maxSteps : Int) :
    ∀ (fuel : Nat) (steps : Int) (messages : List Message) (res : AgentResult),
      (runLoop env cfg maxSteps fuel steps messages).outcome = .ok res →
      ∃ extra, res.messages = messages ++ extra ∧
        ∀ m ∈ extra, m.role = RoleAssistant ∨ m.role = RoleTool := by
  intro fuel
  induction fuel with
  | zero =>
    intro steps messages res h
    exact absurd h (by simp [runLoop, maxStepsTrace])
  | succ f ih =>
    intro steps messages res h
    by_cases hge : steps ≥ maxSteps
    · rw [runLoop_max_step env cfg f messages hge] at h
      exact absurd h (by simp [maxStepsTrace])
    · cases hg : env.gen steps messages (buildToolDefs cfg.tools) with
      | error err =>
        rw [runLoop_genErr_step env cfg f hge hg] at h
        exact absurd h (by simp)
      | ok resp =>
        obtain ⟨t, htm, hta⟩ : ∃ t, msgsAfterText messages resp = messages ++ t ∧
            ∀ m ∈ t, m.role = RoleAssistant := by
          by_cases ht : resp.text = ""
          · exact ⟨[], by simp [msgsAfterText, ht], by simp⟩
          · exact ⟨[{ role := RoleAssistant, content := resp.text }],
              by simp [msgsAfterText, ht], by simp⟩
        by_cases htc : resp.toolCalls = []
        · rw [runLoop_done_step env cfg f hge hg htc] at h
          simp only [Except.ok.injEq] at h
          refine ⟨t, ?_, fun m hm => Or.inl (hta m hm)⟩
          rw [← h, htm]
        · rw [runLoop_batch_step env cfg f hge hg htc] at h
          cases hbe : (processToolCalls env cfg.tools steps resp.toolCalls
              (msgsAfterText messages resp)).err with
          | some err =>
            simp only [hbe] at h
            exact absurd h (by simp)
          | none =>
            simp only [hbe] at h
            obtain ⟨extra2, hx2, hr2⟩ := ih (steps + 1)
              (processToolCalls env cfg.tools steps resp.toolCalls
                (msgsAfterText messages resp)).messages res (by simpa using h)
            obtain ⟨extraB, hxB, hrB⟩ := processToolCalls_extends env cfg.tools steps
              resp.toolCalls (msgsAfterText messages resp)
            refine ⟨t ++ extraB ++ extra2, ?_, ?_⟩
            · rw [hx2, hxB, htm]
              simp
            · intro m hm
              simp only [List.mem_append] at hm
              rcases hm with (hm | hm) | hm
              · exact Or.inl (hta m hm)
              · exact Or.inr (hrB m hm)
              · exact hr2 m hm

/-- C10: the agent run never mutates the caller's message list — the run
appends to its own copy — and on successful termination
`Result.Messages` begins with exactly the initial messages, unchanged
and in order, followed only by assistant-role and tool-role messages
appended during the run. -/
theorem initial_messages_preserved
    (env : AgentEnv) (cfg : AgentConfig) (initialMessages : List Message)
    (emitterPresent : Bool) (res : AgentResult)
    (h : (RunWithEvents env cfg initialMessages emitterPresent).outcome = .ok res) :
    res.messages.take initialMessages.length = initialMessages ∧
    ∀ m ∈ res.messages.drop initialMessages.length,
      m.role = RoleAssistant ∨ m.role = RoleTool := by
  cases hv : cfg.validate with
  | some err =>
    rw [RunWithEvents] at h
    simp only [hv] at h
    exact absurd h (by simp)
  | none =>
    have h' : (runLoop env cfg (maxStepsOrDefault cfg.maxSteps)
        ((maxStepsOrDefault cfg.maxSteps).toNat + 1) 0 initialMessages).outcome = .ok res := by
      rw [RunWithEvents] at h
      simpa only [hv] using h
    obtain ⟨extra, hx, hr⟩ := runLoop_ok_messages env cfg
      (maxStepsOrDefault cfg.maxSteps) ((maxStepsOrDefault cfg.maxSteps).toNat + 1)
      0 initialMessages res h'
    constructor
    · rw [hx, List.take_left]
    · rw [hx, List.drop_left]
      exact hr

/-- C10 witness: the concrete two-step scenario started from one user
message. -/
theorem initial_messages_preserved_witness :
    ([{ role := "user", content := "q" }, { role := "tool", content := "good=42" },
       { role := "assistant", content := "done" }] : List Message).take 1 =
      [{ role := "user", content := "q" }] ∧
    ∀ m ∈ ([{ role := "user", content := "q" }, { role := "tool", content := "good=42" },
       { role := "assistant", content := "done" }] : List Message).drop 1,
      m.role = RoleAssistant ∨ m.role = RoleTool :=
  initial_messages_preserved twoStepEnv oneToolCfg [{ role := "user", content := "q" }] false
    { messages := [{ role := "user", content := "q" }, { role := "tool", content := "good=42" },
        { role := "assistant", content := "done" }]
      finalText := "done", steps := 1 }
    (by decide)

/-- C6 counterexample: at this concrete input — one batch containing the
registered `good` tool call followed by a call to the unregistered
`missing` tool — the run does terminate with an error and no `Result`,
but the message history at termination is not the history from before
the batch started (empty here): the first call's tool-result message was
appended before the unregistered name was discovered, so the claim's
"no partial tool-result messages appended" part fails. -/
theorem unknown_tool_counterexample :
    (RunWithEvents mixedBatchEnv oneToolCfg [] true).outcome =
      .error (unknownToolError "missing") ∧
    (RunWithEvents mixedBatchEnv oneToolCfg [] true).history =
      [{ role := RoleTool, content := "good=42" }] ∧
    [({ role := RoleTool, content := "good=42" } : Message)] ≠ ([] : List Message) :=
  ⟨by decide, by decide, by decide⟩

/-- C6 amended: if the batch returned by the first reasoning call is
`pre ++ bad :: post` where every call in `pre` succeeds end to end and
`bad` names no registered tool, the run terminates with the unknown-tool
error and no `Result`; the pre-batch history is a prefix of the internal
history at termination, followed by exactly one tool-role result message
per successful call in `pre` — and nothing for the unregistered call or
the calls after it.  (The caller's own message list is never modified;
when the unregistered tool is the first call of the batch, the history
is exactly the pre-batch history.) -/
theorem unknown_tool_batch_behavior
    (env : AgentEnv) (cfg : AgentConfig) (initialMessages : List Message)
    (resp : GenerateTextResponse) (pre : List ToolCall) (bad : ToolCall)
    (post : List ToolCall) (emitterPresent : Bool)
    (hval : cfg.validate = none)
    (hmax : 1 ≤ maxStepsOrDefault cfg.maxSteps)
    (hgen₀ : env.gen 0 initialMessages (buildToolDefs cfg.tools) = .ok resp)
    (htcs : resp.toolCalls = pre ++ bad :: post)
    (hpre : ∀ tc ∈ pre, toolCallSucceeds env cfg.tools tc)
    (hbad : lookupTool cfg.tools bad.name = none) :
    (RunWithEvents env cfg initialMessages emitterPresent).outcome =
      .error (unknownToolError bad.name) ∧
    ∃ extra,
      (RunWithEvents env cfg initialMessages emitterPresent).history =
        msgsAfterText initialMessages resp ++ extra ∧
      extra.length = pre.length ∧ ∀ m ∈ extra, m.role = RoleTool := by
  set M := maxStepsOrDefault cfg.maxSteps with hM
  have h0 : ¬ (0 : Int) ≥ M := by omega
  have hne : resp.toolCalls ≠ [] := by simp [htcs]
  obtain ⟨hbe, hbx, extra, hbm, hlen, hrole⟩ :=
    processToolCalls_unknown env cfg.tools 0 pre bad post
      (msgsAfterText initialMessages resp) hpre hbad
  rw [← htcs] at hbe hbm
  have hstep := runLoop_batch_step env cfg M.toNat h0 hgen₀ hne
  simp only [hbe] at hstep
  refine ⟨?_, ⟨extra, ?_, hlen, hrole⟩⟩ <;>
    simp [RunWithEvents, hval, ← hM, hstep, hbm]

/-- C6 amended witness: the concrete mixed batch. -/
theorem unknown_tool_batch_behavior_witness :
    (RunWithEvents mixedBatchEnv oneToolCfg [] true).outcome =
      .error (unknownToolError "missing") ∧
    ∃ extra,
      (RunWithEvents mixedBatchEnv oneToolCfg [] true).history =
        msgsAfterText []
          { text := "", stopReason := ""
            toolCalls := [{ id := "1", name := "good", rawArguments := "a" },
                          { id := "2", name := "missing", rawArguments := "b" }] } ++ extra ∧
      extra.length = 1 ∧ ∀ m ∈ extra, m.role = RoleTool := by
  have h := unknown_tool_batch_behavior mixedBatchEnv oneToolCfg []
    { text := "", stopReason := ""
      toolCalls := [{ id := "1", name := "good", rawArguments := "a" },
                    { id := "2", name := "missing", rawArguments := "b" }] }
    [{ id := "1", name := "good", rawArguments := "a" }]
    { id := "2", name := "missing", rawArguments := "b" }
    [] true (by decide) (by decide) rfl rfl
    (fun tc htc => by
      have htc' : tc = { id := "1", name := "good", rawArguments := "a" } := by
        simpa using htc
      subst htc'
      exact ⟨goodTool, "42", "good=42", rfl, rfl, rfl⟩)
    rfl
  simpa using h

end AiSdk
